import Mathlib

/-!
Shallow embedding of the data pipeline of the COVID-19 vaccination dashboard
(`covid_vax_dashboard.py`).

The dashboard's computational core works on a table whose rows carry an
entity label (column `Entity`), a parsed calendar date (column `Day`) and a
numeric daily dose count (column `COVID-19 doses (daily)`).  We model a raw
input row (`RawRow`) with an `Option Int` date (the result of
`pd.to_datetime(..., errors='coerce')`: `none` is `NaT`), calendar dates as
`Int` (any order-preserving encoding of dates), and numeric values as `Rat`.
Grouping with sorted keys (pandas `groupby(sort=True)` as well as
`sort_values`) is realised by the stable `List.insertionSort`; `dedup`
extracts the distinct keys.  Python's `int(...)` on a float is truncation
toward zero, modelled by `ratTrunc`.  Failing computations (`NaT.date()`,
`int(nan)`) are modelled with `Option`.
-/

/-- A raw CSV row after `pd.to_datetime(df['Day'], errors='coerce')`:
`day = none` means the date string failed to parse. -/
structure RawRow where
  entity : String
  day : Option Int
  doses : Rat
deriving DecidableEq

/-- A cleaned record (a row surviving `dropna(subset=['Day'])`). -/
structure Record where
  entity : String
  day : Int
  doses : Rat
deriving DecidableEq

/-- Embeds `load_data`: parse dates (already reflected in `RawRow.day`) and
drop the rows whose date failed to parse. -/
def load_data (rows : List RawRow) : List Record :=
  rows.filterMap (fun r =>
    match r.day with
    | some d => some ⟨r.entity, d, r.doses⟩
    | none => none)

/-- Distinct `Day` keys in ascending order, as produced by
`df.groupby('Day', as_index=False)` followed by `.sort_values('Day')`. -/
def sortedDays (rs : List Record) : List Int :=
  List.insertionSort (· ≤ ·) ((rs.map Record.day).dedup)

/-- Sum of the dose column over the records of one day group. -/
def dayTotal (rs : List Record) (d : Int) : Rat :=
  ((rs.filter (fun r => r.day = d)).map Record.doses).sum

/-- Embeds line 32: `df.groupby('Day', as_index=False)[dose].sum().sort_values('Day')`,
one `(day, total_doses)` row per distinct day, ascending by day. -/
def global_daily (rs : List Record) : List (Int × Rat) :=
  (sortedDays rs).map (fun d => (d, dayTotal rs d))

/-- The `COVID-19 doses (daily)` column of `global_daily`. -/
def globalTotals (rs : List Record) : List Rat :=
  (global_daily rs).map Prod.snd

/-- Arithmetic mean of a list of rationals (`Series.mean`). -/
def meanList (l : List Rat) : Rat :=
  l.sum / (l.length : Rat)

/-- Embeds `.rolling(7, min_periods=1).mean()`: entry `i` is the mean of the
window of positions `max (0, i-6) .. i` (here `(take (i+1)).drop (i+1-7)`
with truncated subtraction). -/
def rollingMean7 (l : List Rat) : List Rat :=
  (List.range l.length).map (fun i => meanList ((l.take (i + 1)).drop (i + 1 - 7)))

/-- Embeds lines 32-33: the global daily series together with its `7d_avg`
column. -/
def global_daily_full (rs : List Record) : List (Int × Rat × Rat) :=
  List.zipWith (fun p a => (p.1, p.2, a)) (global_daily rs) (rollingMean7 (globalTotals rs))

/-- Distinct `Entity` keys in ascending order, as produced by
`df.groupby('Entity', as_index=False)` (pandas sorts group keys). -/
def sortedEntities (rs : List Record) : List String :=
  List.insertionSort (· ≤ ·) ((rs.map Record.entity).dedup)

/-- Lifetime dose total of one entity. -/
def entityTotal (rs : List Record) (e : String) : Rat :=
  ((rs.filter (fun r => r.entity = e)).map Record.doses).sum

/-- The per-entity totals table produced by the `groupby('Entity')...sum()`
of line 42, keyed in ascending entity order. -/
def entityTotalsTable (rs : List Record) : List (String × Rat) :=
  (sortedEntities rs).map (fun e => (e, entityTotal rs e))

/-- Comparator of `.sort_values('COVID-19 doses (daily)', ascending=False)`:
order by dose total, descending. -/
def descTotal (p q : String × Rat) : Prop := q.2 ≤ p.2

instance : DecidableRel descTotal := fun p q => inferInstanceAs (Decidable (q.2 ≤ p.2))

instance : IsTotal (String × Rat) descTotal := ⟨fun p q => le_total q.2 p.2⟩

instance : IsTrans (String × Rat) descTotal := ⟨fun _ _ _ h h' => le_trans h' h⟩

/-- Embeds line 42: the per-entity totals ranked descending by total. -/
def entityRanking (rs : List Record) : List (String × Rat) :=
  List.insertionSort descTotal (entityTotalsTable rs)

/-- Embeds lines 42/44: `top_entities.head(top_n)`. -/
def top_entities (rs : List Record) (n : Nat) : List (String × Rat) :=
  (entityRanking rs).take n

/-- Embeds lines 52-53 (written out like the source, which repeats the
grouping pipeline on `df[df['Entity'] == chosen]`): the per-entity daily
series. -/
def entity_daily (rs : List Record) (e : String) : List (Int × Rat) :=
  (List.insertionSort (· ≤ ·) (((rs.filter (fun r => r.entity = e)).map Record.day).dedup)).map
    (fun d => (d, (((rs.filter (fun r => r.entity = e)).filter (fun r => r.day = d)).map Record.doses).sum))

/-- The dose column of `entity_daily`. -/
def entityTotalsCol (rs : List Record) (e : String) : List Rat :=
  (entity_daily rs e).map Prod.snd

/-- Embeds lines 52-53 with the `7d_avg` column added. -/
def entity_daily_full (rs : List Record) (e : String) : List (Int × Rat × Rat) :=
  List.zipWith (fun p a => (p.1, p.2, a)) (entity_daily rs e) (rollingMean7 (entityTotalsCol rs e))

/-- Python's `int(...)` applied to a (rational-valued) float: truncation
toward zero. -/
def ratTrunc (q : Rat) : Int :=
  Int.tdiv q.num q.den

/-- Embeds line 22: `df['Day'].max().date()`; on an empty frame the maximum
is `NaT` and `.date()` raises, modelled as `none`. -/
def latest_date (rs : List Record) : Option Int :=
  (rs.map Record.day).max?

/-- Embeds line 23: `int(df['COVID-19 doses (daily)'].sum())` (the sum of an
empty column is `0.0`, so this one is total). -/
def total_doses (rs : List Record) : Int :=
  ratTrunc ((rs.map Record.doses).sum)

/-- Embeds line 24: `int(df.groupby('Day')[dose].sum().mean())`; the mean of
an empty series is `nan` and `int(nan)` raises, modelled as `none`. -/
def avg_daily (rs : List Record) : Option Int :=
  if (sortedDays rs).map (dayTotal rs) = [] then none
  else some (ratTrunc (meanList ((sortedDays rs).map (dayTotal rs))))

/-- The example record set of the spec: entities A and B, two days,
doses 10, 5 and 20 (days encoded as `20210101` and `20210102`). -/
def rs9 : List Record :=
  [⟨"A", 20210101, 10⟩, ⟨"B", 20210101, 5⟩, ⟨"A", 20210102, 20⟩]

/-- Tie-break counterexample input: B appears before A in the input and both
have the same total. -/
def rs5 : List Record :=
  [⟨"B", 0, 5⟩, ⟨"A", 0, 5⟩]

/-- Fractional-dose input showing that `int(...)` truncates the overall
total. -/
def rs1c : List Record :=
  [⟨"A", 0, mkRat 1 2⟩]

/-- An eight-day single-entity input, long enough for a full 7-day window. -/
def rsW : List Record :=
  [⟨"A", 1, 1⟩, ⟨"A", 2, 2⟩, ⟨"A", 3, 3⟩, ⟨"A", 4, 4⟩,
   ⟨"A", 5, 5⟩, ⟨"A", 6, 6⟩, ⟨"A", 7, 7⟩, ⟨"A", 8, 8⟩]

/-! Helper lemmas. -/

/-- Literal fact used to evaluate string sorts: `['A'] ≤ ['B']` as char lists. -/
theorem charAB : (['A'] : List Char) ≤ ['B'] := by decide

/-- Literal fact used to evaluate string sorts: `['B'] ≤ ['A']` fails. -/
theorem charBA : ¬ (['B'] : List Char) ≤ ['A'] := by decide

/-- Python `int()` truncates toward zero: floor for nonnegative values,
ceiling for negative ones. -/
theorem ratTrunc_eq_floor_ceil (q : Rat) :
    ratTrunc q = if 0 ≤ q then ⌊q⌋ else ⌈q⌉ := by
  unfold ratTrunc
  rcases le_or_lt 0 q with h | h
  · rw [if_pos h, Rat.floor_def]
    exact Int.tdiv_eq_ediv (Rat.num_nonneg.mpr h) (Int.natCast_nonneg _)
  · rw [if_neg (not_le.mpr h)]
    have h3 : (⌈q⌉ : Int) = -⌊-q⌋ := by
      have := Int.ceil_neg (α := Rat) (a := -q)
      rwa [neg_neg] at this
    have h4 : (0 : Int) ≤ -q.num := by
      have := Rat.num_neg.mpr h
      omega
    rw [h3, Rat.floor_def, Rat.neg_num, Rat.neg_den,
      ← Int.tdiv_eq_ediv h4 (Int.natCast_nonneg _), Int.neg_tdiv, neg_neg]

/-- Truncation is the identity on integers. -/
theorem ratTrunc_intCast (z : Int) : ratTrunc ((z : Rat)) = z := by
  unfold ratTrunc
  rw [Rat.num_intCast, Rat.den_intCast]
  exact Int.tdiv_one z

/-- The dose column of `global_daily` is the per-day totals over the sorted
distinct days. -/
theorem globalTotals_eq (rs : List Record) :
    globalTotals rs = (sortedDays rs).map (dayTotal rs) := by
  simp [globalTotals, global_daily, List.map_map]

/-- Distinct days are sorted without duplicates. -/
theorem sortedDays_nodup (rs : List Record) : (sortedDays rs).Nodup :=
  ((List.perm_insertionSort _ _).symm.nodup) (List.nodup_dedup _)

/-- The sorted distinct days are weakly sorted. -/
theorem sortedDays_sorted_le (rs : List Record) :
    List.Sorted (· ≤ ·) (sortedDays rs) :=
  List.sorted_insertionSort _ _

/-- The sorted distinct days are strictly sorted. -/
theorem sortedDays_sorted_lt (rs : List Record) :
    List.Sorted (· < ·) (sortedDays rs) :=
  (sortedDays_sorted_le rs).lt_of_le (sortedDays_nodup rs)

/-- Membership in the sorted distinct days. -/
theorem mem_sortedDays (rs : List Record) (d : Int) :
    d ∈ sortedDays rs ↔ ∃ r ∈ rs, r.day = d := by
  simp [sortedDays, List.mem_insertionSort, List.mem_dedup, List.mem_map]

/-- Splitting one record off a day-group total. -/
theorem dayTotal_cons (r : Record) (rs : List Record) (d : Int) :
    dayTotal (r :: rs) d = (if r.day = d then r.doses else 0) + dayTotal rs d := by
  simp only [dayTotal, List.filter_cons]
  split
  · next hb =>
    rw [if_pos (by simpa using hb)]
    simp
  · next hb =>
    rw [if_neg (by simpa using hb)]
    simp

/-- Summing a pointwise sum over a key list splits into two sums. -/
theorem sum_map_add (f g : Int → Rat) (ds : List Int) :
    (ds.map (fun d => f d + g d)).sum = (ds.map f).sum + (ds.map g).sum := by
  induction ds with
  | nil => simp
  | cons d ds ih => simp [ih]; ring

/-- Over a duplicate-free key list containing `a`, an indicator sum collapses
to its single value. -/
theorem sum_map_ite (ds : List Int) (a : Int) (v : Rat)
    (hnd : ds.Nodup) (ha : a ∈ ds) :
    (ds.map (fun d => if a = d then v else 0)).sum = v := by
  induction ds with
  | nil => cases ha
  | cons d ds ih =>
    rcases List.mem_cons.mp ha with h | h
    · subst h
      rw [List.map_cons, if_pos rfl, List.sum_cons]
      have hz : ∀ x ∈ ds.map (fun d => if a = d then v else 0), x = 0 := by
        intro x hx
        rcases List.mem_map.mp hx with ⟨d', hd', hxev⟩
        have hne : a ≠ d' := by
          intro hcontra
          exact (List.nodup_cons.mp hnd).1 (hcontra ▸ hd')
        simpa [if_neg hne] using hxev.symm
      rw [List.sum_eq_zero hz, add_zero]
    · have hne : a ≠ d := by
        intro hcontra
        exact (List.nodup_cons.mp hnd).1 (hcontra ▸ h)
      rw [List.map_cons, if_neg hne, List.sum_cons, zero_add]
      exact ih (List.nodup_cons.mp hnd).2 h

/-- Conservation over any duplicate-free key list covering all days: the sum
of the per-day group totals is the sum of all dose values. -/
theorem sum_dayTotal (rs : List Record) (ds : List Int)
    (hnd : ds.Nodup) (hall : ∀ r ∈ rs, r.day ∈ ds) :
    (ds.map (dayTotal rs)).sum = (rs.map Record.doses).sum := by
  induction rs with
  | nil =>
    rw [List.map_nil, List.sum_nil]
    apply List.sum_eq_zero
    intro x hx
    rcases List.mem_map.mp hx with ⟨d, _, hev⟩
    simpa [dayTotal] using hev.symm
  | cons r rs ih =>
    have hsplit : ds.map (dayTotal (r :: rs))
        = ds.map (fun d => (if r.day = d then r.doses else 0) + dayTotal rs d) := by
      apply List.map_congr_left
      intro d _
      exact dayTotal_cons r rs d
    rw [hsplit, sum_map_add, sum_map_ite ds r.day r.doses hnd (hall r (List.mem_cons_self r rs)),
      List.map_cons, List.sum_cons]
    congr 1
    exact ih (fun r' hr' => hall r' (List.mem_cons_of_mem r hr'))

/-- Conservation of totals under the day regrouping of `global_daily`. -/
theorem global_daily_conservation (rs : List Record) :
    ((global_daily rs).map Prod.snd).sum = (rs.map Record.doses).sum := by
  show (globalTotals rs).sum = _
  rw [globalTotals_eq]
  have hperm : List.Perm ((sortedDays rs).map (dayTotal rs))
      (((rs.map Record.day).dedup).map (dayTotal rs)) :=
    (List.perm_insertionSort _ _).map _
  rw [hperm.sum_eq]
  exact sum_dayTotal rs _ (List.nodup_dedup _)
    (fun r hr => List.mem_dedup.mpr (List.mem_map_of_mem Record.day hr))

/-- In a duplicate-free list, two elements cannot occur in both orders. -/
theorem eq_of_pair_sublist_swap {α : Type} {l : List α} (hnd : l.Nodup) :
    ∀ {a b : α}, [a, b].Sublist l → [b, a].Sublist l → a = b := by
  induction l with
  | nil =>
    intro a b h1 _
    exact absurd (List.sublist_nil.mp h1) (by simp)
  | cons x t ih =>
    intro a b h1 h2
    rcases List.nodup_cons.mp hnd with ⟨hx, hnt⟩
    cases h1 with
    | cons _ h1' =>
      cases h2 with
      | cons _ h2' => exact ih hnt h1' h2'
      | cons₂ _ h2' => exact absurd (h1'.subset (by simp)) hx
    | cons₂ _ h1' =>
      cases h2 with
      | cons _ h2' => exact absurd (h2'.subset (by simp)) hx
      | cons₂ _ h2' => rfl

/-- In a pairwise-ordered list, two related member elements occur as a
sublist in that order. -/
theorem sublist_pair_of_pairwise {α : Type} {S : α → α → Prop}
    (hasymm : ∀ a b, S a b → ¬ S b a) :
    ∀ {l : List α}, l.Pairwise S → ∀ {a b : α}, a ∈ l → b ∈ l → S a b → [a, b].Sublist l := by
  intro l
  induction l with
  | nil =>
    intro _ a b ha
    cases ha
  | cons x t ih =>
    intro hp a b ha hb hS
    rcases List.pairwise_cons.mp hp with ⟨hhead, htail⟩
    rcases List.mem_cons.mp ha with rfl | hat
    · rcases List.mem_cons.mp hb with rfl | hbt
      · exact absurd hS (hasymm _ _ hS)
      · exact List.cons_sublist_cons.mpr (List.singleton_sublist.mpr hbt)
    · rcases List.mem_cons.mp hb with rfl | hbt
      · exact absurd (hhead a hat) (hasymm _ _ hS)
      · exact List.Sublist.cons _ (ih htail hat hbt hS)

/-- Distinct entities are free of duplicates. -/
theorem sortedEntities_nodup (rs : List Record) : (sortedEntities rs).Nodup :=
  ((List.perm_insertionSort _ _).symm.nodup) (List.nodup_dedup _)

/-- Distinct entities are strictly sorted by name. -/
theorem sortedEntities_sorted_lt (rs : List Record) :
    List.Sorted (· < ·) (sortedEntities rs) :=
  (List.sorted_insertionSort _ _).lt_of_le (sortedEntities_nodup rs)

/-- Membership in the sorted distinct entities. -/
theorem mem_sortedEntities (rs : List Record) (e : String) :
    e ∈ sortedEntities rs ↔ ∃ r ∈ rs, r.entity = e := by
  simp [sortedEntities, List.mem_insertionSort, List.mem_dedup, List.mem_map]

/-- The entity-totals table is strictly increasing in the name component. -/
theorem entityTotalsTable_pairwise_lt (rs : List Record) :
    List.Pairwise (fun p q : String × Rat => p.1 < q.1) (entityTotalsTable rs) :=
  List.pairwise_map.mpr (sortedEntities_sorted_lt rs)

/-- The entity-totals table has no duplicate rows. -/
theorem entityTotalsTable_nodup (rs : List Record) : (entityTotalsTable rs).Nodup :=
  (entityTotalsTable_pairwise_lt rs).imp
    (fun hlt he => absurd (he ▸ hlt) (lt_irrefl _))

/-- Rows of the entity-totals table are determined by their name. -/
theorem mem_entityTotalsTable (rs : List Record) {p : String × Rat}
    (hp : p ∈ entityTotalsTable rs) : p = (p.1, entityTotal rs p.1) := by
  rcases List.mem_map.mp hp with ⟨e, _, hev⟩
  rw [← hev]

/-- The descending ranking is sorted by the descending-total comparator. -/
theorem entityRanking_sorted (rs : List Record) :
    List.Sorted descTotal (entityRanking rs) :=
  List.sorted_insertionSort descTotal (entityTotalsTable rs)

/-- The descending ranking is a permutation of the totals table. -/
theorem entityRanking_perm (rs : List Record) :
    List.Perm (entityRanking rs) (entityTotalsTable rs) :=
  List.perm_insertionSort descTotal (entityTotalsTable rs)

/-- The descending ranking has no duplicate rows. -/
theorem entityRanking_nodup (rs : List Record) : (entityRanking rs).Nodup :=
  (entityRanking_perm rs).symm.nodup (entityTotalsTable_nodup rs)

/-- Ties in the descending ranking keep the ascending-by-name order of the
grouped table (stability of the sort plus the sorted grouping keys). -/
theorem entityRanking_tie_order (rs : List Record) :
    List.Pairwise (fun p q : String × Rat => p.2 = q.2 → p.1 < q.1) (entityRanking rs) := by
  rw [List.pairwise_iff_forall_sublist]
  intro p q hs heq
  have hpm : p ∈ entityTotalsTable rs :=
    (List.mem_insertionSort descTotal).mp (hs.subset (by simp))
  have hqm : q ∈ entityTotalsTable rs :=
    (List.mem_insertionSort descTotal).mp (hs.subset (by simp))
  have hpe : p = (p.1, entityTotal rs p.1) := mem_entityTotalsTable rs hpm
  have hqe : q = (q.1, entityTotal rs q.1) := mem_entityTotalsTable rs hqm
  have hne : p ≠ q := by
    have := List.pairwise_iff_forall_sublist.mp
      ((List.Nodup.sublist (List.Sublist.refl _) (entityRanking_nodup rs)) : (entityRanking rs).Nodup) hs
    exact this
  have hne1 : p.1 ≠ q.1 := by
    intro h1
    exact hne (by rw [hpe, hqe, h1])
  rcases lt_or_gt_of_ne hne1 with hlt | hgt
  · exact hlt
  · exfalso
    have hqp : [q, p].Sublist (entityTotalsTable rs) :=
      sublist_pair_of_pairwise (fun a b h => lt_asymm h)
        (entityTotalsTable_pairwise_lt rs) hqm hpm hgt
    have hqp' : [q, p].Sublist (entityRanking rs) :=
      List.pair_sublist_insertionSort (le_of_eq heq) hqp
    exact hne (eq_of_pair_sublist_swap (entityRanking_nodup rs) hs hqp')

/-- Evaluation of the example's global daily series. -/
theorem global_daily_rs9 : global_daily rs9 = [(20210101, 15), (20210102, 20)] := by
  have h : sortedDays rs9 = [20210101, 20210102] := by decide
  rw [global_daily, h]
  norm_num [dayTotal, rs9]

/-- Evaluation of the example's sorted entity keys. -/
theorem sortedEntities_rs9 : sortedEntities rs9 = ["A", "B"] := by
  simp [sortedEntities, rs9, List.insertionSort, List.orderedInsert,
    eq_true charAB, eq_false charBA]

/-- Evaluation of the example's entity-totals table. -/
theorem entityTotalsTable_rs9 : entityTotalsTable rs9 = [("A", 30), ("B", 5)] := by
  rw [entityTotalsTable, sortedEntities_rs9]
  norm_num [entityTotal, rs9, eq_false (by decide : ¬ ("B" : String) = "A"),
    eq_false (by decide : ¬ ("A" : String) = "B")]

/-- Evaluation of the example's descending entity ranking. -/
theorem entityRanking_rs9 : entityRanking rs9 = [("A", 30), ("B", 5)] := by
  rw [entityRanking, entityTotalsTable_rs9]
  norm_num [List.insertionSort, List.orderedInsert, descTotal]

/-- Evaluation of the tie example's entity ranking: alphabetical on ties. -/
theorem entityRanking_rs5 : entityRanking rs5 = [("A", 5), ("B", 5)] := by
  have h : sortedEntities rs5 = ["A", "B"] := by
    simp [sortedEntities, rs5, List.insertionSort, List.orderedInsert,
      eq_true charAB, eq_false charBA]
  have h2 : entityTotalsTable rs5 = [("A", 5), ("B", 5)] := by
    rw [entityTotalsTable, h]
    norm_num [entityTotal, rs5, eq_false (by decide : ¬ ("B" : String) = "A"),
      eq_false (by decide : ¬ ("A" : String) = "B")]
  rw [entityRanking, h2]
  norm_num [List.insertionSort, List.orderedInsert, descTotal]

/-- The dose column sum of the fractional-dose example is one half. -/
theorem doses_sum_rs1c : (rs1c.map Record.doses).sum = mkRat 1 2 := by
  simp [rs1c]

/-- A nonempty record set yields a nonempty per-day totals series. -/
theorem global_col_ne_nil (rs : List Record) (h : rs ≠ []) :
    (sortedDays rs).map (dayTotal rs) ≠ [] := by
  rcases rs with _ | ⟨r, t⟩
  · exact absurd rfl h
  · have hd : r.day ∈ sortedDays (r :: t) :=
      (mem_sortedDays _ _).mpr ⟨r, List.mem_cons_self r t, rfl⟩
    intro hc
    exact List.ne_nil_of_mem hd (List.map_eq_nil_iff.mp hc)

/-- C7: the Record Loader keeps exactly the rows whose date parses, in input
order, passing `entity` and `doses` through unchanged. -/
theorem claim7_load_data (rows : List RawRow) :
    load_data rows
      = (rows.filter (fun r => r.day.isSome)).map
          (fun r => { entity := r.entity, day := r.day.getD 0, doses := r.doses }) := by
  induction rows with
  | nil => rfl
  | cons r rows ih =>
    cases hd : r.day with
    | none =>
      simp only [load_data, List.filterMap_cons, hd, List.filter_cons, Option.isSome_none,
        Bool.false_eq_true, if_false] at ih ⊢
      exact ih
    | some d =>
      simp only [load_data, List.filterMap_cons, hd, List.filter_cons, Option.isSome_some,
        if_true, List.map_cons, Option.getD_some] at ih ⊢
      exact congrArg _ ih

/-- C1 (amended): regrouping by day conserves the dose total, and the
`total_doses` headline number is the truncation toward zero of that common
total, hence equals it whenever the total is an integer. -/
theorem claim1_totals (rs : List Record) :
    ((global_daily rs).map Prod.snd).sum = (rs.map Record.doses).sum ∧
    total_doses rs = ratTrunc (((global_daily rs).map Prod.snd).sum) ∧
    (∀ z : Int, (rs.map Record.doses).sum = (z : Rat) →
      (total_doses rs : Rat) = (rs.map Record.doses).sum) := by
  refine ⟨global_daily_conservation rs, ?_, ?_⟩
  · rw [total_doses, global_daily_conservation rs]
  · intro z hz
    rw [total_doses, hz, ratTrunc_intCast]

/-- Witness for C1 at the example input, whose dose total is the integer 35. -/
theorem claim1_witness :
    (rs9.map Record.doses).sum = ((35 : Int) : Rat) ∧
    (total_doses rs9 : Rat) = (rs9.map Record.doses).sum := by
  have h : (rs9.map Record.doses).sum = ((35 : Int) : Rat) := by norm_num [rs9]
  exact ⟨h, (claim1_totals rs9).2.2 35 h⟩

/-- Counterexample to C1 as stated: on a half-dose record, `int(...)`
truncates, so the `total_doses` statistic differs from the exact sums (which
still agree with each other). -/
theorem claim1_counterexample :
    (total_doses rs1c : Rat) ≠ (rs1c.map Record.doses).sum ∧
    ((global_daily rs1c).map Prod.snd).sum = (rs1c.map Record.doses).sum := by
  constructor
  · have h : total_doses rs1c = 0 := by
      unfold total_doses
      rw [doses_sum_rs1c]
      decide
    rw [h, doses_sum_rs1c]
    intro hc
    have h2 := congrArg Rat.num hc
    rw [Rat.num_intCast] at h2
    rw [(by decide : (mkRat 1 2).num = 1)] at h2
    exact absurd h2 (by decide)
  · exact global_daily_conservation rs1c

/-- C3: the global daily series is strictly sorted by day, contains exactly
the days occurring in the records, and each row's total sums the doses of
all records of that day regardless of entity. -/
theorem claim3_global_daily_keys (rs : List Record) :
    List.Sorted (· < ·) ((global_daily rs).map Prod.fst) ∧
    (∀ d : Int, d ∈ (global_daily rs).map Prod.fst ↔ ∃ r ∈ rs, r.day = d) ∧
    (∀ p ∈ global_daily rs,
      p.2 = ((rs.filter (fun r => r.day = p.1)).map Record.doses).sum) := by
  have hfst : (global_daily rs).map Prod.fst = sortedDays rs := by
    rw [global_daily, List.map_map]
    exact List.map_id (sortedDays rs)
  refine ⟨?_, ?_, ?_⟩
  · rw [hfst]
    exact sortedDays_sorted_lt rs
  · intro d
    rw [hfst]
    exact mem_sortedDays rs d
  · intro p hp
    rcases List.mem_map.mp hp with ⟨d, _, hev⟩
    rw [← hev]
    rfl

/-- Witness for C3 at the example input and its first day. -/
theorem claim3_witness :
    List.Sorted (· < ·) ((global_daily rs9).map Prod.fst) ∧
    (20210101 ∈ (global_daily rs9).map Prod.fst ↔ ∃ r ∈ rs9, r.day = 20210101) ∧
    (20210101, (15 : Rat)).2
      = ((rs9.filter (fun r => r.day = (20210101, (15 : Rat)).1)).map Record.doses).sum := by
  refine ⟨(claim3_global_daily_keys rs9).1, (claim3_global_daily_keys rs9).2.1 20210101, ?_⟩
  apply (claim3_global_daily_keys rs9).2.2 (20210101, (15 : Rat))
  rw [global_daily_rs9]
  simp

/-- C4: `top_entities` returns `min n (number of distinct entities)` rows,
sorted descending by total, and every included total dominates every
excluded entity's total; `n` beyond the entity count returns all rows. -/
theorem claim4_top_entities (rs : List Record) (n : Nat) :
    (top_entities rs n).length = min n ((rs.map Record.entity).toFinset.card) ∧
    List.Sorted descTotal (top_entities rs n) ∧
    (∀ p ∈ top_entities rs n, ∀ q ∈ entityTotalsTable rs,
      q.1 ∉ (top_entities rs n).map Prod.fst → q.2 ≤ p.2) := by
  refine ⟨?_, ?_, ?_⟩
  · simp [top_entities, List.length_take, entityRanking, List.length_insertionSort,
      entityTotalsTable, List.length_map, sortedEntities, List.card_toFinset]
  · exact List.Pairwise.sublist (List.take_sublist n _) (entityRanking_sorted rs)
  · intro p hp q hq hnotin
    have hqr : q ∈ entityRanking rs := (List.mem_insertionSort descTotal).mpr hq
    have hpw2 : List.Pairwise descTotal
        (List.take n (entityRanking rs) ++ List.drop n (entityRanking rs)) := by
      rw [List.take_append_drop]
      exact entityRanking_sorted rs
    have hqr2 : q ∈ List.take n (entityRanking rs) ++ List.drop n (entityRanking rs) := by
      rw [List.take_append_drop]
      exact hqr
    rcases List.mem_append.mp hqr2 with hqt | hqd
    · exact absurd (List.mem_map_of_mem Prod.fst hqt) hnotin
    · exact (List.pairwise_append.mp hpw2).2.2 p hp q hqd

/-- Witness for C4 at the example input with `n = 1`: the excluded entity B
has a total of 5 and the included entity A a total of 30. -/
theorem claim4_witness :
    (top_entities rs9 1).length = min 1 ((rs9.map Record.entity).toFinset.card) ∧
    List.Sorted descTotal (top_entities rs9 1) ∧
    (5 : Rat) ≤ (30 : Rat) := by
  have hp : ("A", (30 : Rat)) ∈ top_entities rs9 1 := by
    rw [top_entities, entityRanking_rs9]
    simp [List.take_succ_cons]
  have hq : ("B", (5 : Rat)) ∈ entityTotalsTable rs9 := by
    rw [entityTotalsTable_rs9]
    simp
  have hn : ("B" : String) ∉ (top_entities rs9 1).map Prod.fst := by
    rw [top_entities, entityRanking_rs9]
    simp [List.take_succ_cons, eq_false (by decide : ¬ ("B" : String) = "A")]
  exact ⟨(claim4_top_entities rs9 1).1, (claim4_top_entities rs9 1).2.1,
    (claim4_top_entities rs9 1).2.2 ("A", (30 : Rat)) hp ("B", (5 : Rat)) hq hn⟩

/-- Counterexample to C5 as stated: with B before A in the input and equal
totals, `top_entities` lists A before B, which is alphabetical order, not
input order. -/
theorem claim5_counterexample :
    (top_entities rs5 2).map Prod.fst = ["A", "B"] ∧
    rs5.map Record.entity = ["B", "A"] ∧
    entityTotal rs5 "A" = entityTotal rs5 "B" ∧
    (top_entities rs5 2).map Prod.fst ≠ rs5.map Record.entity := by
  have h : top_entities rs5 2 = [("A", 5), ("B", 5)] := by
    rw [top_entities, entityRanking_rs5]
    rfl
  refine ⟨by rw [h]; rfl, rfl, ?_, ?_⟩
  · norm_num [entityTotal, rs5, eq_false (by decide : ¬ ("B" : String) = "A"),
      eq_false (by decide : ¬ ("A" : String) = "B")]
  · rw [h]
    decide

/-- C5 (amended): in the `top_entities` ranking, entities with equal totals
appear in ascending entity-name order — the order the sorted grouping step
emits, preserved by the stable descending sort — not in input order. -/
theorem claim5_tie_order (rs : List Record) (n : Nat) :
    List.Pairwise (fun p q : String × Rat => p.2 = q.2 → p.1 < q.1) (top_entities rs n) :=
  List.Pairwise.sublist (List.take_sublist n _) (entityRanking_tie_order rs)

/-- Witness for C5 (amended) at the tie example. -/
theorem claim5_witness :
    List.Pairwise (fun p q : String × Rat => p.2 = q.2 → p.1 < q.1) (top_entities rs5 2) :=
  claim5_tie_order rs5 2

/-- C2: the rolling column has one entry per day; entry `i` is the mean of
the first `i + 1` totals when `i < 6`, and of the 7 totals at positions
`i - 6 .. i` when `6 ≤ i`. -/
theorem claim2_rolling (rs : List Record) (i : Nat)
    (h : i < (rollingMean7 (globalTotals rs)).length) :
    (rollingMean7 (globalTotals rs)).length = (globalTotals rs).length ∧
    (i < 6 → (rollingMean7 (globalTotals rs)).get ⟨i, h⟩
      = meanList ((globalTotals rs).take (i + 1))) ∧
    (6 ≤ i → (rollingMean7 (globalTotals rs)).get ⟨i, h⟩
      = meanList (((globalTotals rs).drop (i - 6)).take 7)) := by
  have hget : (rollingMean7 (globalTotals rs)).get ⟨i, h⟩
      = meanList (((globalTotals rs).take (i + 1)).drop (i + 1 - 7)) := by
    rw [List.get_eq_getElem]
    unfold rollingMean7
    rw [List.getElem_map, List.getElem_range]
  refine ⟨by simp [rollingMean7], ?_, ?_⟩
  · intro h6
    rw [hget, (by omega : i + 1 - 7 = 0), List.drop_zero]
  · intro h6
    rw [hget, (by omega : i + 1 - 7 = i - 6), List.drop_take,
      (by omega : i + 1 - (i - 6) = 7)]

/-- Witness for C2 at the eight-day input and index 7 (a full window). -/
theorem claim2_witness :
    (rollingMean7 (globalTotals rsW)).length = (globalTotals rsW).length ∧
    (7 < 6 → (rollingMean7 (globalTotals rsW)).get ⟨7, by decide⟩
      = meanList ((globalTotals rsW).take (7 + 1))) ∧
    (6 ≤ 7 → (rollingMean7 (globalTotals rsW)).get ⟨7, by decide⟩
      = meanList (((globalTotals rsW).drop (7 - 6)).take 7)) :=
  claim2_rolling rsW 7 (by decide)

/-- C6: the per-entity daily series is exactly the global pipeline applied
to the records of that entity, and an entity matching no record yields an
empty series rather than an error. -/
theorem claim6_entity_daily (rs : List Record) (e : String) :
    entity_daily_full rs e = global_daily_full (rs.filter (fun r => r.entity = e)) ∧
    (rs.filter (fun r => r.entity = e) = [] → entity_daily_full rs e = []) := by
  constructor
  · rfl
  · intro h
    show global_daily_full (rs.filter (fun r => r.entity = e)) = []
    rw [h]
    rfl

/-- Witness for C6 at the example input and the unmatched entity C. -/
theorem claim6_witness :
    entity_daily_full rs9 "C" = global_daily_full (rs9.filter (fun r => r.entity = "C")) ∧
    entity_daily_full rs9 "C" = [] :=
  ⟨(claim6_entity_daily rs9 "C").1, (claim6_entity_daily rs9 "C").2 (by decide)⟩

/-- C8: the `avg_daily` headline number is the mean of the global daily
totals column — the mean of the per-day sums — truncated toward zero
(floor for a nonnegative mean, ceiling for a negative one, not rounding). -/
theorem claim8_avg_daily (rs : List Record) (h : rs ≠ []) :
    avg_daily rs = some (if 0 ≤ meanList (globalTotals rs)
      then ⌊meanList (globalTotals rs)⌋ else ⌈meanList (globalTotals rs)⌉) := by
  have hcol : (sortedDays rs).map (dayTotal rs) = globalTotals rs :=
    (globalTotals_eq rs).symm
  have hne : (sortedDays rs).map (dayTotal rs) ≠ [] := global_col_ne_nil rs h
  unfold avg_daily
  rw [if_neg hne, hcol, ratTrunc_eq_floor_ceil]

/-- Witness for C8 at the example input. -/
theorem claim8_witness :
    avg_daily rs9 = some (if 0 ≤ meanList (globalTotals rs9)
      then ⌊meanList (globalTotals rs9)⌋ else ⌈meanList (globalTotals rs9)⌉) :=
  claim8_avg_daily rs9 (by simp [rs9])

/-- C9: on the spec's example records, the global series is exactly the two
rows `(2021-01-01, 15, 15.0)` and `(2021-01-02, 20, 17.5)`, and the top-1
entity ranking is exactly `[(A, 30)]`. -/
theorem claim9_example :
    global_daily_full rs9 = [(20210101, 15, 15), (20210102, 20, mkRat 35 2)] ∧
    top_entities rs9 1 = [("A", 30)] := by
  constructor
  · rw [global_daily_full, globalTotals, global_daily_rs9]
    norm_num [rollingMean7, meanList, List.range_succ]
  · rw [top_entities, entityRanking_rs9]
    rfl

/-- C10: on an empty record set both `latest_date` and `avg_daily` fail
(modelled as `none`), and on any nonempty record set both succeed. -/
theorem claim10_empty_kpis :
    latest_date [] = none ∧ avg_daily [] = none ∧
    (∀ rs : List Record, rs ≠ [] → (latest_date rs).isSome ∧ (avg_daily rs).isSome) := by
  refine ⟨rfl, rfl, fun rs h => ⟨?_, ?_⟩⟩
  · rw [Option.isSome_iff_ne_none]
    intro hc
    exact h (by simpa using List.max?_eq_none_iff.mp hc)
  · have hne : (sortedDays rs).map (dayTotal rs) ≠ [] := global_col_ne_nil rs h
    unfold avg_daily
    rw [if_neg hne]
    rfl

/-- Witness for C10 at the example input. -/
theorem claim10_witness :
    (latest_date rs9).isSome ∧ (avg_daily rs9).isSome :=
  claim10_empty_kpis.2.2 rs9 (by simp [rs9])
